import Mathlib

/-!
Verification of the response-shaping and code-emission logic of the `gql`
code generator (src/gql/renderer_dataclasses.py and src/gql/cli.py).

JSON values decoded from a GraphQL response are modelled by `JSON`: Python
`None`, `bool`, `int`, `str`, `list` and `dict` values, with dicts as
insertion-ordered association lists with unique keys (Python 3.7+ dict
order).  Python operations that can raise are modelled in `Except String`,
the error string naming the Python exception class that would be raised.
-/

inductive JSON where
  | null
  | bool (b : Bool)
  | num (n : Int)
  | str (s : String)
  | arr (items : List JSON)
  | obj (fields : List (String × JSON))

/-- Substring test on character lists: does `pat` occur contiguously? -/
def listContainsSub (pat : List Char) : List Char → Bool
  | [] => pat.isEmpty
  | c :: rest => pat.isPrefixOf (c :: rest) || listContainsSub pat rest

/-- Python `needle in s` for strings: substring test (the empty needle is
contained in every string). -/
def pyStrContains (needle s : String) : Bool :=
  listContainsSub needle.data s.data

/-- Replace every leftmost, non-overlapping occurrence of `pat` by `rep`,
scanning left to right; `fuel` bounds the recursion and is adequate at the
list's length (each step consumes at least one character). -/
def replaceFuel (pat rep : List Char) : Nat → List Char → List Char
  | _, [] => []
  | 0, l => l
  | fuel + 1, c :: rest =>
    if pat.isPrefixOf (c :: rest) then
      match pat with
      | [] => c :: rest
      | _ :: ptail => rep ++ replaceFuel pat rep fuel (rest.drop ptail.length)
    else c :: replaceFuel pat rep fuel rest

/-- Python `s.replace(pattern, replacement)`: every leftmost,
non-overlapping occurrence is replaced, scanning left to right; an empty
pattern inserts the replacement around every character. -/
def pyReplace (s pattern replacement : String) : String :=
  if pattern == "" then
    String.mk (replacement.data ++ s.data.flatMap (fun c => c :: replacement.data))
  else String.mk (replaceFuel pattern.data replacement.data s.data.length s.data)

/-- Python `s.split(sep)` for a nonempty separator: split on every
occurrence, adjacent separators yielding empty pieces; `fuel` adequate at
the list's length. -/
def pySplitFuel (sep : List Char) : Nat → List Char → List (List Char)
  | _, [] => [[]]
  | 0, l => [l]
  | fuel + 1, c :: rest =>
    if sep.isPrefixOf (c :: rest) then
      match sep with
      | [] => [c :: rest]
      | _ :: stail => [] :: pySplitFuel sep fuel (rest.drop stail.length)
    else
      match pySplitFuel sep fuel rest with
      | [] => [[c]]
      | h :: t => (c :: h) :: t

/-- Python `s.split(sep)` (nonempty separator, as used in the source). -/
def pySplit (s sep : String) : List String :=
  (pySplitFuel sep.data s.data.length s.data).map String.mk

/-- Python truthiness of a decoded JSON value: `None`, `False`, `0`, `""`,
`[]` and `{}` are falsy, everything else is truthy. -/
def pyTruthy : JSON → Bool
  | .null => false
  | .bool b => b
  | .num n => n != 0
  | .str s => s != ""
  | .arr xs => !xs.isEmpty
  | .obj fs => !fs.isEmpty

/-- Python `needle in v`: key membership for dicts, element equality for
lists (a string compares equal only to an equal string), substring test for
strings; `in` on `None`, booleans and numbers raises `TypeError`. -/
def pyContains (needle : String) (v : JSON) : Except String Bool :=
  match v with
  | .obj fs => .ok ((fs.lookup needle).isSome)
  | .arr xs => .ok (xs.any (fun x => match x with | .str t => t == needle | _ => false))
  | .str s => .ok (pyStrContains needle s)
  | _ => .error "TypeError"

/-- Python `v[k]` with a string key: dict lookup (`KeyError` when absent);
indexing a list or a string with a string key, or any non-container,
raises `TypeError`. -/
def pyGetItem (v : JSON) (k : String) : Except String JSON :=
  match v with
  | .obj fs =>
    match fs.lookup k with
    | some x => .ok x
    | none => .error "KeyError"
  | _ => .error "TypeError"

/-- Python `v.get(k, dflt)`: only dicts have `.get`; anything else raises
`AttributeError`. -/
def pyGet (v : JSON) (k : String) (dflt : JSON) : Except String JSON :=
  match v with
  | .obj fs => .ok ((fs.lookup k).getD dflt)
  | _ => .error "AttributeError"

/-- Python `{**a, **b}` on dicts: the keys of `a` in order, with values
overridden by `b` where present, followed by the keys of `b` not in `a`,
in the order of `b`. -/
def pyMerge {α : Type} (a b : List (String × α)) : List (String × α) :=
  a.map (fun p => (p.1, (b.lookup p.1).getD p.2))
    ++ b.filter (fun q => !(a.any (fun p => p.1 == q.1)))

/-- Python `d.pop(k)` on a dict (the discarded return value elided):
removes the entry with key `k`, raising `KeyError` when absent. -/
def pyPop {α : Type} (l : List (String × α)) (k : String) :
    Except String (List (String × α)) :=
  if (l.lookup k).isSome then .ok (l.filter (fun p => !(p.1 == k)))
  else .error "KeyError"

/-- Python `len(v)`: entry count of a dict, length of a list or string;
`TypeError` on `None`, booleans and numbers. -/
def pyLen (v : JSON) : Except String Nat :=
  match v with
  | .obj fs => .ok fs.length
  | .arr xs => .ok xs.length
  | .str s => .ok s.length
  | _ => .error "TypeError"

/-- Python iteration over `v`: the elements of a list, the characters of a
string (as one-character strings), the keys of a dict; `TypeError`
otherwise. -/
def pyIter (v : JSON) : Except String (List JSON) :=
  match v with
  | .arr xs => .ok xs
  | .str s => .ok (s.data.map (fun c => .str (String.singleton c)))
  | .obj fs => .ok (fs.map (fun p => .str p.1))
  | _ => .error "TypeError"

/-- Python `v > 0`: meaningful for ints (and bools, which are ints with
`True = 1`); comparing `None`, strings, lists or dicts with `0` raises
`TypeError`. -/
def pyGtZero (v : JSON) : Except String Bool :=
  match v with
  | .num n => .ok (decide (0 < n))
  | .bool b => .ok b
  | _ => .error "TypeError"

/-- The key normalization shared by `simplify` and `relayify`
(renderer_dataclasses.py lines 123-125 and 151-153):
`operation_name.replace("store", "insert").replace("destroy", "delete")`,
replacing every occurrence as Python `str.replace` does. -/
def normKey (k : String) : String :=
  pyReplace (pyReplace k "store" "insert") "destroy" "delete"

/-- The passthrough guard shared verbatim by `simplify` (lines 120-121) and
`relayify` (lines 148-149):
`if "data" not in response or ("errors" in response and response["errors"]):
    return response`.
Returns `true` when the response is passed through unchanged, evaluating
the Python condition left to right with short-circuiting. -/
def passthroughCheck (response : JSON) : Except String Bool :=
  match pyContains "data" response with
  | .error e => .error e
  | .ok hasData =>
    if !hasData then .ok true
    else
      match pyContains "errors" response with
      | .error e => .error e
      | .ok false => .ok false
      | .ok true =>
        match pyGetItem response "errors" with
        | .error e => .error e
        | .ok errs => .ok (pyTruthy errs)

/-- `DataclassesRenderer.simplify` (renderer_dataclasses.py lines 118-140),
translated statement by statement; Python exceptions become `.error`. -/
def simplify (response : JSON) (key : String) : Except String JSON :=
  match passthroughCheck response with
  | .error e => .error e
  | .ok true => .ok response
  | .ok false =>
    -- operation_name = operation_name.replace("store", "insert")...
    let opName := normKey key
    -- data = response["data"]
    match pyGetItem response "data" with
    | .error e => .error e
    | .ok data =>
      let bypk := opName ++ "_by_pk"
      -- if f"{item_key}_by_pk" in data:
      match pyContains bypk data with
      | .error e => .error e
      | .ok true =>
        match pyGetItem data bypk with
        | .error e => .error e
        -- if data[f"{item_key}_by_pk"] is None: return {}
        | .ok .null => .ok (JSON.obj [])
        | .ok v =>
          -- data = {**data, **data[f"{item_key}_by_pk"]}; data.pop(...)
          match data, v with
          | .obj fs, .obj vs =>
            match pyPop (pyMerge fs vs) bypk with
            | .error e => .error e
            | .ok popped => .ok (JSON.obj popped)
          | _, _ => .error "TypeError"
      -- return data.get(item_key, [])
      | .ok false => pyGet data opName (JSON.arr [])

/-- The tail of `relayify` (renderer_dataclasses.py lines 188-191):
`if len(data) > 1: return data` then `return data.get(item_key, [])`. -/
def relayifyReturn (data : JSON) (opName : String) : Except String JSON :=
  match pyLen data with
  | .error e => .error e
  | .ok n => if n > 1 then .ok data else pyGet data opName (JSON.arr [])

/-- The fall-through part of `relayify` (renderer_dataclasses.py lines
183-191), reached when no aggregate count was found or the count is not
`> 0`: the by-pk merge (note: unlike `simplify`, with no `is None` check,
so a null by-pk value raises `TypeError` from `{**data, **None}`),
then the multi-key / default return. -/
def relayifyFallthrough (data : JSON) (opName : String) : Except String JSON :=
  let bypk := opName ++ "_by_pk"
  match pyContains bypk data with
  | .error e => .error e
  | .ok true =>
    match pyGetItem data bypk with
    | .error e => .error e
    | .ok v =>
      match data, v with
      | .obj fs, .obj vs =>
        match pyPop (pyMerge fs vs) bypk with
        | .error e => .error e
        | .ok popped => relayifyReturn (JSON.obj popped) opName
      | _, _ => .error "TypeError"
  | .ok false => relayifyReturn data opName

/-- `DataclassesRenderer.relayify` (renderer_dataclasses.py lines 142-191),
translated statement by statement.  The aggregate count is read through
`data.get(aggregate_key, {}).get("aggregate", {}).get("count", None)`; when
it is an int (or bool) `> 0` the relay envelope with `totalCount`,
`pageInfo` and `edges` (1-based positions as string cursors) is returned.
When the count is `None`-or-absent, or not `> 0`, control falls through to
the by-pk / multi-key logic: in the Python source the `return
relay_response` sits inside `if total_count > 0:`, so the envelope built
for a non-positive count is a dead store and is never returned. -/
def relayify (response : JSON) (key : String) : Except String JSON :=
  match passthroughCheck response with
  | .error e => .error e
  | .ok true => .ok response
  | .ok false =>
    let opName := normKey key
    match pyGetItem response "data" with
    | .error e => .error e
    | .ok data =>
      let aggKey := opName ++ "_aggregate"
      match pyGet data aggKey (JSON.obj []) with
      | .error e => .error e
      | .ok a1 =>
        match pyGet a1 "aggregate" (JSON.obj []) with
        | .error e => .error e
        | .ok a2 =>
          match pyGet a2 "count" JSON.null with
          | .error e => .error e
          | .ok totalCount =>
            match totalCount with
            -- if total_count is not None: ... (None falls through)
            | .null => relayifyFallthrough data opName
            | tc =>
              match pyGtZero tc with
              | .error e => .error e
              | .ok false => relayifyFallthrough data opName
              | .ok true =>
                match pyGet data opName (JSON.arr []) with
                | .error e => .error e
                | .ok items =>
                  match pyIter items with
                  | .error e => .error e
                  | .ok xs =>
                    .ok (JSON.obj
                      [("totalCount", tc),
                       ("pageInfo", JSON.obj
                         [("hasNextPage", JSON.bool false),
                          ("endCursor", JSON.null)]),
                       ("edges", JSON.arr (xs.enum.map (fun p =>
                         JSON.obj [("cursor", JSON.str (toString (p.1 + 1))),
                                   ("node", p.2)])))])

/-! ### Well-shapedness predicates

`simplify` and `relayify` raise on malformed responses (for instance on
`{"data": null}`, where `"item_by_pk" in data` respectively `data.get(...)`
raises a `TypeError`/`AttributeError`).  The predicates below carve out the
class of responses on which each function provably returns normally: the
branch conditions of the source, collected. -/

/-- The by-pk entry of `data` is absent, null, or a dict — the shapes on
which `simplify`'s by-pk branch does not raise. -/
def simplifySafeData (ds : List (String × JSON)) (opName : String) : Bool :=
  match ds.lookup (opName ++ "_by_pk") with
  | none => true
  | some .null => true
  | some (.obj _) => true
  | some _ => false

/-- Python truthiness of `response["errors"]` when the key is present. -/
def errorsTruthy (fs : List (String × JSON)) : Bool :=
  match fs.lookup "errors" with
  | some e => pyTruthy e
  | none => false

/-- Responses on which `simplify` provably returns normally: a dict whose
`data` entry is absent, or whose `errors` entry is truthy, or whose `data`
value is a dict with a well-shaped by-pk entry. -/
def simplifyTotalOn (response : JSON) (key : String) : Bool :=
  match response with
  | .obj fs =>
    match fs.lookup "data" with
    | none => true
    | some d =>
      errorsTruthy fs ||
        (match d with
         | .obj ds => simplifySafeData ds (normKey key)
         | _ => false)
  | _ => false

/-- The by-pk entry of `data` is absent or a dict — `relayify`'s merge has
no `is None` escape, so a null by-pk value raises. -/
def relayifySafeFallthrough (ds : List (String × JSON)) (opName : String) : Bool :=
  match ds.lookup (opName ++ "_by_pk") with
  | none => true
  | some (.obj _) => true
  | some _ => false

/-- The `data[key]` entry (defaulting to `[]`) is iterable, so the edges
comprehension does not raise. -/
def relayifySafeItems (ds : List (String × JSON)) (opName : String) : Bool :=
  match (ds.lookup opName).getD (JSON.arr []) with
  | .arr _ => true
  | .str _ => true
  | .obj _ => true
  | _ => false

/-- The aggregate-count chain passes through dicts to an int/bool or
bottoms out absent, and the branch it selects is safe. -/
def relayifySafeData (ds : List (String × JSON)) (opName : String) : Bool :=
  match (ds.lookup (opName ++ "_aggregate")).getD (JSON.obj []) with
  | .obj a1 =>
    match (a1.lookup "aggregate").getD (JSON.obj []) with
    | .obj a2 =>
      match (a2.lookup "count").getD JSON.null with
      | .null => relayifySafeFallthrough ds opName
      | .num n => if 0 < n then relayifySafeItems ds opName
                  else relayifySafeFallthrough ds opName
      | .bool b => if b then relayifySafeItems ds opName
                   else relayifySafeFallthrough ds opName
      | _ => false
    | _ => false
  | _ => false

/-- Responses on which `relayify` provably returns normally. -/
def relayifyTotalOn (response : JSON) (key : String) : Bool :=
  match response with
  | .obj fs =>
    match fs.lookup "data" with
    | none => true
    | some d =>
      errorsTruthy fs ||
        (match d with
         | .obj ds => relayifySafeData ds (normKey key)
         | _ => false)
  | _ => false

/-- `v` is a Python list or dict with no `"data"` key (dict) respectively
no `"data"` element (list) — the shapes `simplify` passes through. -/
def hasNoDataMember (v : JSON) : Bool :=
  match v with
  | .obj fs => (fs.lookup "data").isNone
  | .arr xs => !(xs.any (fun x => match x with | .str t => t == "data" | _ => false))
  | _ => false

/-- `v` has no `"errors"` key (vacuous for non-dicts). -/
def hasNoErrorsKey (v : JSON) : Bool :=
  match v with
  | .obj fs => (fs.lookup "errors").isNone
  | _ => true

/-- No key of `v` contains a `_by_pk` or `_aggregate` marker (vacuous for
non-dicts). -/
def hasNoMarkerKeys (v : JSON) : Bool :=
  match v with
  | .obj fs => fs.all (fun p =>
      !(pyStrContains "_by_pk" p.1) && !(pyStrContains "_aggregate" p.1))
  | _ => true

/-- Dict key membership of the produced value (used to state that a result
carries no `edges` key). -/
def jsonHasKey (v : JSON) (k : String) : Bool :=
  match v with
  | .obj fs => (fs.lookup k).isSome
  | _ => false

/-! ### The code emitter

The IR types below are `Modelled from the spec:` they are defined in
src/gql/query_parser.py, which is not among the provided sources; §3 of the
spec describes their fields, and renderer_dataclasses.py (provided)
consumes them.  The `CodeChunk` line buffer (src/gql/utils_codegen.py, also
not provided) is modelled as a list of emitted lines: `buffer.write`
appends one line, `buffer.write_block` appends its header line and indents
the lines written inside by four spaces, and `str(buffer)` joins the lines
with newlines.  Buffer threading is replaced by list concatenation. -/

/-- Modelled from the spec (§3): a scalar/enum-typed selection.
`default_value` is kept as the text Python would interpolate. -/
structure ParsedField where
  name : String
  type : String
  nullable : Bool
  default_value : Option String

/-- Modelled from the spec (§3): an operation variable. -/
structure ParsedVariableDefinition where
  name : String
  type : String
  nullable : Bool
  default_value : Option String

/-- An enum value is a string or a number (spec §3). -/
inductive EnumLiteral where
  | s (v : String)
  | i (v : Int)

/-- Modelled from the spec (§3): an enum with its ordered values. -/
structure ParsedEnum where
  name : String
  values : List (String × EnumLiteral)

/-- Modelled from the spec (§3): a nested object shape. -/
inductive ParsedObject where
  | mk (name : String) (parents : List String)
       (children : List ParsedObject) (fields : List ParsedField)

def ParsedObject.name : ParsedObject → String
  | .mk n _ _ _ => n

def ParsedObject.parents : ParsedObject → List String
  | .mk _ p _ _ => p

def ParsedObject.children : ParsedObject → List ParsedObject
  | .mk _ _ c _ => c

def ParsedObject.fields : ParsedObject → List ParsedField
  | .mk _ _ _ f => f

/-- Modelled from the spec (§3): a top-level operation.  The source field
`variables` is a reserved word in Lean and is named `vars` here. -/
structure ParsedOperation where
  name : String
  vars : List ParsedVariableDefinition
  children : List ParsedObject

/-- A `ParsedQuery.objects` entry is a `ParsedObject` or a
`ParsedOperation`; the renderer dispatches on `isinstance` and sorts with
key `1 if isinstance(obj, ParsedOperation) else 0` (spec §3: an operation
is a distinguished kind of object for ordering purposes). -/
inductive TopLevelType where
  | object (o : ParsedObject)
  | operation (op : ParsedOperation)

def TopLevelType.isOperation : TopLevelType → Bool
  | .operation _ => true
  | .object _ => false

/-- Modelled from the spec (§3): the IR of one compiled document. -/
structure ParsedQuery where
  query : String
  enums : List ParsedEnum
  objects : List TopLevelType

/-- Modelled from the spec (§6): the configuration the renderer consumes —
an endpoint URL embedded into emitted bodies and an optional custom header
prepended to every emitted file (gql/config.py is not among the provided
sources). -/
structure Config where
  custom_header : Option String
  endpoint : String

/-- Stable insertion of `x` into a sorted list: `x` goes before the first
element whose key is not smaller, so earlier elements with an equal key
stay in front. -/
def stableInsert {α : Type} (key : α → Nat) (x : α) : List α → List α
  | [] => [x]
  | y :: ys => if key y < key x then y :: stableInsert key x ys else x :: y :: ys

/-- Python `sorted(l, key=...)`: Python guarantees a stable sort, which for
a given key function uniquely determines the output; modelled by a stable
insertion sort. -/
def pySorted {α : Type} (key : α → Nat) (l : List α) : List α :=
  l.foldr (stableInsert key) []

/-- One level of `write_block` indentation. -/
def indent4 (ls : List String) : List String :=
  ls.map (fun s => "    " ++ s)

/-- Python `f"= {field.default_value}"` formats `None` as `None`. -/
def defaultValueText : Option String → String
  | none => "None"
  | some s => s

/-- `__render_field` (renderer_dataclasses.py lines 299-324): the suffix is
chosen by a chain of non-exclusive `if`s, each overriding the previous —
enum codec, then nullable default, then the DateTime codec (which also
rewrites the field type), then the hard-coded association-list defaults. -/
def renderFieldLine (pq : ParsedQuery) (f : ParsedField) : String :=
  let enumNames := pq.enums.map ParsedEnum.name
  let isEnum := enumNames.contains f.type
  let suffix1 := if isEnum then "= enum_field(" ++ f.type ++ ")" else ""
  let suffix2 := if f.nullable then "= " ++ defaultValueText f.default_value else suffix1
  let fieldType := if f.type == "DateTime" then "datetime" else f.type
  let suffix3 := if f.type == "DateTime" then "= DATETIME_FIELD" else suffix2
  let suffix4 :=
    if fieldType == "List[user_amazon_association]"
        || fieldType == "List[user_ebay_association]" then
      "= " ++ defaultValueText f.default_value
    else suffix3
  f.name ++ ": " ++ fieldType ++ " " ++ suffix4

/-- The field sort key of `__render_object` (line 107):
`(f.type != "DateTime", f.nullable)` — a pair of booleans compared
lexicographically, encoded here as `2*(type != DateTime) + nullable`. -/
def fieldSortKey (f : ParsedField) : Nat :=
  (if f.type == "DateTime" then 0 else 2) + (if f.nullable then 1 else 0)

/-- `__render_enum` value formatting: strings are requoted, numbers are
printed. -/
def enumLiteralText : EnumLiteral → String
  | .s v => "\x27" ++ v ++ "\x27"
  | .i v => toString v

/-- `__render_enum` (lines 326-335). -/
def renderEnumLines (e : ParsedEnum) : List String :=
  ["class " ++ e.name ++ "(Enum):"]
    ++ indent4 (e.values.map (fun p => p.1 ++ " = " ++ enumLiteralText p.2))
    ++ [""]

/-- `__render_enum_field` (lines 65-78). -/
def enumFieldHelperLines : List String :=
  ["def enum_field(enum_type):"]
    ++ indent4
      (["def encode_enum(value):"] ++ indent4 ["return value.value"] ++ [""]
        ++ ["def decode_enum(t, value):"] ++ indent4 ["return t(value)"] ++ [""]
        ++ ["return field(metadata=\x7b\x27dataclasses_json\x27: \x7b\x27encoder\x27: encode_enum, \x27decoder\x27: partial(decode_enum, enum_type)\x7d\x7d)",
            ""])

/-- `__render_datetime_field` (lines 80-91). -/
def datetimeFieldLines : List String :=
  ["",
   "from datetime import datetime",
   "from marshmallow import fields as marshmallow_fields",
   "def custom_datetime_encoder(dt):",
   "    return dt.isoformat() if dt is not None else None",
   "DATETIME_FIELD = field(metadata=\x7b\x27dataclasses_json\x27: \x7b\x27encoder\x27: custom_datetime_encoder, \x27decoder\x27: parser.parse, \x27mm_field\x27: marshmallow_fields.DateTime(format=\x27iso\x27)\x7d\x7d)",
   ""]

/-- The fixed import preamble of `render` (lines 26-38). -/
def headerImportLines : List String :=
  ["# AUTOGENERATED file. Do not Change!",
   "import re",
   "from functools import partial",
   "from typing import Any, Callable, Mapping, List",
   "from enum import Enum",
   "from dataclasses import dataclass, field",
   "from dataclasses_json import dataclass_json",
   "from gql.clients import Client, AsyncIOClient",
   "from gql.renderer_dataclasses import DataclassesRenderer",
   "from app.facades import auth",
   "from dateutil import parser",
   "from app.exceptions import CantProceed",
   ""]

/-- `__render_object` (lines 93-116): decorators, class header with the
fragment parents, then inside the block the children (recursively), the
fields re-sorted by `fieldSortKey`, a `pass` when the object is empty, and
a blank line after the block. -/
def renderObjectLines (pq : ParsedQuery) : ParsedObject → List String
  | .mk nm parents children fields =>
    ["@dataclass_json", "@dataclass",
     "class " ++ nm
       ++ (if parents.isEmpty then "" else "(" ++ ", ".intercalate parents ++ ")")
       ++ ":"]
    ++ indent4
      ((children.attach.map (fun c => renderObjectLines pq c.1)).flatten
        ++ (pySorted fieldSortKey fields).map (renderFieldLine pq)
        ++ (if children.isEmpty && fields.isEmpty then ["pass"] else []))
    ++ [""]
termination_by o => sizeOf o
decreasing_by
  simp_wf
  have := List.sizeOf_lt_of_mem c.2
  omega

/-- `vars_args_str` (lines 215-218). -/
def varsArgsStr (op : ParsedOperation) : String :=
  let s := ", ".intercalate (op.vars.map (fun v => v.name ++ "=None"))
  if s == "" then s else s ++ ", "

/-- One `variables` dict entry (lines 220-228): an unset `str` variable
with no default falls back to the empty string literal. -/
def variableDictEntry (x : ParsedVariableDefinition) : String :=
  let defval :=
    match x.default_value with
    | none => if x.type == "str" then "\x22\x22" else "None"
    | some s => s
  "\x27" ++ x.name ++ "\x27: " ++ x.name ++ " if " ++ x.name ++ " is not None else " ++ defval

def variablesDictStr (op : ParsedOperation) : String :=
  ", ".intercalate (op.vars.map variableDictEntry)

/-- Body of the generated `execute` classmethod (lines 230-257). -/
def executeBodyLines (cfg : Config) (op : ParsedOperation) : List String :=
  ["client = Client(\x27" ++ cfg.endpoint ++ "\x27)",
   "variables = \x7b" ++ variablesDictStr op ++ "\x7d",
   "response_text = client.call(cls.__QUERY__, variables=variables, on_before_callback=on_before_callback)",
   "data = cls.from_json(response_text).to_dict()",
   "if data.get(\x27errors\x27):",
   "    raise CantProceed(data[\x27errors\x27])",
   "operation_name = cls.__name__.replace(\x27find\x27, \x27\x27).replace(\x27get\x27, \x27\x27)",
   "singular_str = operation_name[:-1] if operation_name.endswith(\x27s\x27) else operation_name",
   "snake_case_str = re.sub(r\x27(?<!^)(?=[A-Z])\x27, \x27_\x27, singular_str).lower()",
   "return DataclassesRenderer.relayify(data, snake_case_str) if auth.is_standard_call() else DataclassesRenderer.simplify(data, snake_case_str)"]

/-- Body of the generated `execute_async` classmethod (lines 261-287). -/
def executeAsyncBodyLines (cfg : Config) (op : ParsedOperation) : List String :=
  ["client = AsyncIOClient(\x27" ++ cfg.endpoint ++ "\x27)",
   "variables = \x7b" ++ variablesDictStr op ++ "\x7d",
   "response_text = await client.call(cls.__QUERY__, variables=variables, on_before_callback=on_before_callback)",
   "data = cls.from_json(response_text).to_dict()",
   "if data.get(\x27errors\x27):",
   "    raise CantProceed(data[\x27errors\x27])",
   "operation_name = cls.__name__.replace(\x27find\x27, \x27\x27).replace(\x27get\x27, \x27\x27)",
   "singular_str = operation_name[:-1] if operation_name.endswith(\x27s\x27) else operation_name",
   "snake_case_str = re.sub(r\x27(?<!^)(?=[A-Z])\x27, \x27_\x27, singular_str).lower()",
   "return DataclassesRenderer.relayify(data, snake_case_str) if auth.is_standard_call() else DataclassesRenderer.simplify(data, snake_case_str)"]

/-- `__render_operation` (lines 193-290): the verbatim query text, the
children, the `data`/`errors` fields, then the two execution entry points
with identical parameter lists. -/
def renderOperationLines (cfg : Config) (pq : ParsedQuery) (op : ParsedOperation) : List String :=
  ["@dataclass_json", "@dataclass", "class " ++ op.name ++ ":"]
  ++ indent4
    (["__QUERY__ = \x22\x22\x22", pq.query, "\x22\x22\x22", ""]
      ++ (op.children.map (renderObjectLines pq)).flatten
      ++ ["", "data: " ++ op.name ++ "Data = None", "errors: Any = None", ""]
      ++ ["@classmethod",
          "def execute(cls, " ++ varsArgsStr op
            ++ "on_before_callback: Callable[[Mapping[str, str], Mapping[str, str]], None] = None):"]
      ++ indent4 (executeBodyLines cfg op)
      ++ [""]
      ++ ["@classmethod",
          "async def execute_async(cls, " ++ varsArgsStr op
            ++ "on_before_callback: Callable[[Mapping[str, str], Mapping[str, str]], None] = None):"]
      ++ indent4 (executeAsyncBodyLines cfg op)
      ++ ["", ""])

/-- The sort key of `render` (line 55):
`1 if isinstance(obj, ParsedOperation) else 0`. -/
def operationSortKey : TopLevelType → Nat
  | .operation _ => 1
  | .object _ => 0

/-- The `isinstance` dispatch of `render`'s emission loop (lines 57-61). -/
def renderTopLevelLines (cfg : Config) (pq : ParsedQuery) : TopLevelType → List String
  | .object o => renderObjectLines pq o
  | .operation op => renderOperationLines cfg pq op

/-- The non-type preamble of `render` (lines 26-45): imports, the custom
header when truthy, a blank line, and the DateTime codec. -/
def renderPreambleLines (cfg : Config) : List String :=
  headerImportLines
    ++ (match cfg.custom_header with
        | some h => if h == "" then [] else pySplit h "\n"
        | none => [])
    ++ [""]
    ++ datetimeFieldLines

/-- `DataclassesRenderer.render` (lines 23-63), as the list of emitted
lines: preamble, then (when any enums) the enum codec helper and the enum
types, then the top-level types sorted with operations last. -/
def renderLines (cfg : Config) (pq : ParsedQuery) : List String :=
  renderPreambleLines cfg
    ++ (if pq.enums.isEmpty then []
        else enumFieldHelperLines ++ (pq.enums.map renderEnumLines).flatten)
    ++ ((pySorted operationSortKey pq.objects).map (renderTopLevelLines cfg pq)).flatten

/-- `str(buffer)`: the string `render` returns. -/
def renderString (cfg : Config) (pq : ParsedQuery) : String :=
  "\n".intercalate (renderLines cfg pq)

/-! ### The batch driver (src/gql/cli.py)

`process_files_with_same_domain` groups query files by model name and runs
`process_files_in_directory` on each, sequentially.  `parser.parse` lives
in src/gql/query_parser.py, which is not among the provided sources, and
is taken as an arbitrary function that may raise `AnonymousQueryError` or
`InvalidQueryError` (spec §7); file reads, output writes, `click` echoes
and the Black formatting step are external effects (spec §1) and are
elided.  Attribute lookups and calls on the renderer are resolved against
the method table of `DataclassesRenderer` as defined in
src/gql/renderer_dataclasses.py. -/

/-- The Python exceptions the driver can see. -/
inductive PyExc where
  | attributeError (attr : String)
  | typeError (meth : String)
  | indexError
  | anonymousQueryError
  | invalidQueryError (msg : String)

/-- The publicly addressable methods of `DataclassesRenderer`
(renderer_dataclasses.py) with their arity beyond `self`/`cls`:
`render(self, parsed_query)`, `simplify(response, operation_name)`,
`relayify(response, operation_name)`.  The double-underscore helpers are
name-mangled and not addressable as `renderer.<name>`; no
`render_shared_code` method exists. -/
def rendererMethodArity : String → Option Nat
  | "render" => some 1
  | "simplify" => some 2
  | "relayify" => some 2
  | _ => none

/-- Calling `renderer.<name>(...)` with `args` arguments: a missing
attribute raises `AttributeError`, an arity mismatch raises `TypeError`. -/
def callRendererMethod (name : String) (args : Nat) : Except PyExc Unit :=
  match rendererMethodArity name with
  | none => .error (.attributeError name)
  | some k => if args == k then .ok () else .error (.typeError name)

/-- The per-document outcome as reported by `process_files_in_directory`:
success, or a caught parse failure. -/
inductive DocStatus where
  | success
  | failedAnonymous
  | failedInvalid (msg : String)

/-- One grouped file: the path pieces `process_files_with_same_domain`
extracts plus the file's contents (read externally). -/
structure BatchItem where
  full_path : String
  name_of_the_file : String
  app_or_package : String
  name_of_the_model : String
  content : String

/-- Python `l[i]` for a non-negative index: `IndexError` out of range. -/
def pyListGet {α : Type} (l : List α) (i : Nat) : Except PyExc α :=
  match l.get? i with
  | some x => .ok x
  | none => .error .indexError

/-- Python `re.sub(r"(?<!^)(?=[A-Z])", "_", s).lower()` (cli.py line 152):
an underscore before every non-initial ASCII uppercase letter, then
lowercase. -/
def snakeCase (s : String) : String :=
  let withSeps :=
    match s.data with
    | [] => []
    | c :: rest => c :: rest.flatMap (fun d => if d.isUpper then ['_', d] else [d])
  String.mk (withSeps.map Char.toLower)

/-- `process_files_in_directory` (cli.py lines 142-191): compute the name
pieces, emit the shared code (`renderer.render_shared_code()` — a method
`DataclassesRenderer` does not define), then inside `try:` parse the query
and call `renderer.render(parsed, full_path)` (two arguments against a
one-argument method), catching only `AnonymousQueryError` and
`InvalidQueryError`; any other exception propagates to the caller.  The
output-file write and Black formatting are external and elided. -/
def processFilesInDirectory (parseDoc : String → Except PyExc Unit)
    (item : BatchItem) : Except PyExc DocStatus :=
  let parts := pySplit item.name_of_the_file "."
  let _bare_file_name := "_".intercalate parts.dropLast
  match pyListGet parts 1 with
  | .error e => .error e
  | .ok _verb =>
    let _domain_name := snakeCase item.name_of_the_model
    match callRendererMethod "render_shared_code" 0 with
    | .error e => .error e
    | .ok _ =>
      let tryResult : Except PyExc DocStatus :=
        match parseDoc item.content with
        | .error e => .error e
        | .ok _ =>
          match callRendererMethod "render" 2 with
          | .error e => .error e
          | .ok _ => .ok .success
      match tryResult with
      | .ok s => .ok s
      | .error .anonymousQueryError => .ok .failedAnonymous
      | .error (.invalidQueryError m) => .ok (.failedInvalid m)
      | .error e => .error e

/-- The grouping-loop body of `process_files_with_same_domain` (lines
87-112): split the filename on `/`, drop the first piece, take the last as
the file name, the first as `app`/`packages`, and the model name from the
fixed position; short paths raise `IndexError`. -/
def groupItemOfFilename (filename content : String) : Except PyExc BatchItem :=
  let parts0 := pySplit filename "/"
  let parts := parts0.drop 1
  match parts.getLast? with
  | none => .error .indexError
  | some name_of_the_file =>
    match pyListGet parts 0 with
    | .error e => .error e
    | .ok app_or_package =>
      let modelRes : Except PyExc String :=
        if app_or_package == "app" then pyListGet parts 2
        else if app_or_package == "packages" then pyListGet parts 3
        else .ok ""
      match modelRes with
      | .error e => .error e
      | .ok name_of_the_model =>
        .ok ⟨filename, name_of_the_file, app_or_package, name_of_the_model, content⟩

/-- Append to the group of the item's model name, preserving dict
insertion order (lines 102-112). -/
def addToGroups (gs : List (String × List BatchItem)) (it : BatchItem) :
    List (String × List BatchItem) :=
  if gs.any (fun g => g.1 == it.name_of_the_model) then
    gs.map (fun g =>
      if g.1 == it.name_of_the_model then (g.1, g.2 ++ [it]) else g)
  else gs ++ [(it.name_of_the_model, [it])]

/-- The grouping loop; an exception while grouping aborts everything. -/
def buildGroupsAux (acc : List (String × List BatchItem)) :
    List (String × String) → Except PyExc (List (String × List BatchItem))
  | [] => .ok acc
  | (fn, c) :: rest =>
    match groupItemOfFilename fn c with
    | .error e => .error e
    | .ok it => buildGroupsAux (addToGroups acc it) rest

/-- The sequential processing loop (lines 114-123): documents are handled
one after the other, and an uncaught exception aborts the rest of the
batch.  Returns the statuses of the documents processed before the abort,
and the uncaught exception, if any. -/
def runSeq (parseDoc : String → Except PyExc Unit) :
    List BatchItem → List DocStatus × Option PyExc
  | [] => ([], none)
  | it :: rest =>
    match processFilesInDirectory parseDoc it with
    | .error e => ([], some e)
    | .ok s =>
      let r := runSeq parseDoc rest
      (s :: r.1, r.2)

/-- `process_files_with_same_domain` (lines 84-123) on a list of
`(filename, contents)` pairs. -/
def processFilesWithSameDomain (parseDoc : String → Except PyExc Unit)
    (files : List (String × String)) : List DocStatus × Option PyExc :=
  match buildGroupsAux [] files with
  | .error e => ([], some e)
  | .ok groups => runSeq parseDoc ((groups.map (fun g => g.2)).flatten)

/-! ### A heap model of `simplify` and `relayify`

The pure model above cannot express mutation, so the two functions are
also translated over an explicit store: compound Python values (dicts and
lists) live at addresses, primitives are immediate, and every source
statement maps to reads, fresh allocations (`{...}`, `[...]`, `{**a, **b}`
and allocated `.get` defaults) or writes.  The only writes the source
performs — `data.pop(...)` on the freshly merged dict and the
`relay_response[...] = ...` item assignments — target objects allocated
during the call, which is what the frame theorem below captures. -/

/-- A Python runtime value: a primitive, or a reference into the store. -/
inductive HVal where
  | null
  | bool (b : Bool)
  | num (n : Int)
  | str (s : String)
  | ref (a : Nat)

/-- A store object: a dict (insertion-ordered entries) or a list. -/
inductive HObj where
  | dict (entries : List (String × HVal))
  | list (items : List HVal)

/-- The store: allocated objects by address, plus the next fresh address. -/
structure Heap where
  store : List (Nat × HObj)
  next : Nat

def Heap.lookup (h : Heap) (a : Nat) : Option HObj :=
  h.store.lookup a

/-- Allocate a fresh object, returning its address and the new heap. -/
def Heap.alloc (h : Heap) (o : HObj) : Nat × Heap :=
  (h.next, ⟨h.store ++ [(h.next, o)], h.next + 1⟩)

/-- Overwrite the object at an existing address. -/
def Heap.update (h : Heap) (a : Nat) (o : HObj) : Heap :=
  ⟨h.store.map (fun p => match p.1 == a with | true => (p.1, o) | false => p),
   h.next⟩

/-- Python truthiness of a runtime value (one dereference for dicts and
lists). -/
def hTruthy (h : Heap) (v : HVal) : Except String Bool :=
  match v with
  | .null => .ok false
  | .bool b => .ok b
  | .num n => .ok (n != 0)
  | .str s => .ok (s != "")
  | .ref a =>
    match h.lookup a with
    | some (.dict es) => .ok (!es.isEmpty)
    | some (.list xs) => .ok (!xs.isEmpty)
    | none => .error "DanglingRef"

/-- Python `needle in v` over the store. -/
def hContains (h : Heap) (needle : String) (v : HVal) : Except String Bool :=
  match v with
  | .str s => .ok (pyStrContains needle s)
  | .ref a =>
    match h.lookup a with
    | some (.dict es) => .ok ((es.lookup needle).isSome)
    | some (.list xs) =>
      .ok (xs.any (fun x => match x with | .str t => t == needle | _ => false))
    | none => .error "DanglingRef"
  | _ => .error "TypeError"

/-- Python `v[k]` over the store. -/
def hGetItem (h : Heap) (v : HVal) (k : String) : Except String HVal :=
  match v with
  | .ref a =>
    match h.lookup a with
    | some (.dict es) =>
      match es.lookup k with
      | some x => .ok x
      | none => .error "KeyError"
    | some (.list _) => .error "TypeError"
    | none => .error "DanglingRef"
  | _ => .error "TypeError"

/-- Python `v.get(k, D)` where `D` is a `{}` or `[]` literal: the default
object is allocated (before the call, as Python evaluates the argument)
whether or not it is used. -/
def hGetAllocD (h : Heap) (v : HVal) (k : String) (dflt : HObj) :
    Except String (HVal × Heap) :=
  match v with
  | .ref a =>
    match (h.alloc dflt).2.lookup a with
    | some (.dict es) => .ok ((es.lookup k).getD (.ref h.next), (h.alloc dflt).2)
    | some (.list _) => .error "AttributeError"
    | none => .error "DanglingRef"
  | _ => .error "AttributeError"

/-- Python `v.get(k, d)` with a primitive default (`None`): nothing is
allocated. -/
def hGetPrimD (h : Heap) (v : HVal) (k : String) (dflt : HVal) :
    Except String HVal :=
  match v with
  | .ref a =>
    match h.lookup a with
    | some (.dict es) => .ok ((es.lookup k).getD dflt)
    | some (.list _) => .error "AttributeError"
    | none => .error "DanglingRef"
  | _ => .error "AttributeError"

/-- Python `d[k] = v` on a dict: replace in place when the key exists,
else append. -/
def hSetItem (h : Heap) (a : Nat) (k : String) (v : HVal) : Except String Heap :=
  match h.lookup a with
  | some (.dict es) =>
    let es2 :=
      if (es.lookup k).isSome then
        es.map (fun p => if p.1 == k then (p.1, v) else p)
      else es ++ [(k, v)]
    .ok (h.update a (.dict es2))
  | some (.list _) => .error "TypeError"
  | none => .error "DanglingRef"

/-- Python `d.pop(k)` on the dict at `a`. -/
def hPop (h : Heap) (a : Nat) (k : String) : Except String Heap :=
  match h.lookup a with
  | some (.dict es) =>
    if (es.lookup k).isSome then
      .ok (h.update a (.dict (es.filter (fun p => !(p.1 == k)))))
    else .error "KeyError"
  | some (.list _) => .error "TypeError"
  | none => .error "DanglingRef"

/-- Dereference a value expected to be a dict (for `{**a, **b}`). -/
def hDerefDict (h : Heap) (v : HVal) : Option (List (String × HVal)) :=
  match v with
  | .ref a =>
    match h.lookup a with
    | some (.dict es) => some es
    | _ => none
  | _ => none

/-- Python `len(v)` over the store. -/
def hLen (h : Heap) (v : HVal) : Except String Nat :=
  match v with
  | .str s => .ok s.length
  | .ref a =>
    match h.lookup a with
    | some (.dict es) => .ok es.length
    | some (.list xs) => .ok xs.length
    | none => .error "DanglingRef"
  | _ => .error "TypeError"

/-- Python iteration over the store. -/
def hIter (h : Heap) (v : HVal) : Except String (List HVal) :=
  match v with
  | .str s => .ok (s.data.map (fun c => .str (String.singleton c)))
  | .ref a =>
    match h.lookup a with
    | some (.list xs) => .ok xs
    | some (.dict es) => .ok (es.map (fun p => .str p.1))
    | none => .error "DanglingRef"
  | _ => .error "TypeError"

/-- Python `v > 0` on a runtime value. -/
def hGtZero (v : HVal) : Except String Bool :=
  match v with
  | .num n => .ok (decide (0 < n))
  | .bool b => .ok b
  | _ => .error "TypeError"

/-- The shared passthrough guard over the store (read-only). -/
def hPassthroughCheck (h : Heap) (response : HVal) : Except String Bool :=
  match hContains h "data" response with
  | .error e => .error e
  | .ok false => .ok true
  | .ok true =>
    match hContains h "errors" response with
    | .error e => .error e
    | .ok false => .ok false
    | .ok true =>
      match hGetItem h response "errors" with
      | .error e => .error e
      | .ok errs => hTruthy h errs

/-- The body of `simplify` after the passthrough guard and the
`data = response["data"]` read. -/
def heapSimplifyCore (h : Heap) (data : HVal) (opName : String) :
    Except String (HVal × Heap) :=
  match hContains h (opName ++ "_by_pk") data with
  | .error e => .error e
  | .ok true =>
    match hGetItem h data (opName ++ "_by_pk") with
    | .error e => .error e
    | .ok .null => .ok (.ref h.next, (h.alloc (.dict [])).2)
    | .ok v =>
      match hDerefDict h data, hDerefDict h v with
      | some ds, some vs =>
        match hPop (h.alloc (.dict (pyMerge ds vs))).2 h.next (opName ++ "_by_pk") with
        | .error e => .error e
        | .ok h2 => .ok (.ref h.next, h2)
      | _, _ => .error "TypeError"
  | .ok false => hGetAllocD h data opName (.list [])

/-- `DataclassesRenderer.simplify` over the store (renderer_dataclasses.py
lines 118-140). -/
def heapSimplify (h : Heap) (response : HVal) (key : String) :
    Except String (HVal × Heap) :=
  match hPassthroughCheck h response with
  | .error e => .error e
  | .ok true => .ok (response, h)
  | .ok false =>
    match hGetItem h response "data" with
    | .error e => .error e
    | .ok data => heapSimplifyCore h data (normKey key)

/-- Lines 188-191 of `relayify` over the store. -/
def heapRelayifyReturn (h : Heap) (data : HVal) (opName : String) :
    Except String (HVal × Heap) :=
  match hLen h data with
  | .error e => .error e
  | .ok n =>
    if n > 1 then .ok (data, h)
    else hGetAllocD h data opName (.list [])

/-- Lines 183-191 of `relayify` over the store (by-pk merge without a null
check, then the multi-key / default return). -/
def heapRelayifyFallthrough (h : Heap) (data : HVal) (opName : String) :
    Except String (HVal × Heap) :=
  match hContains h (opName ++ "_by_pk") data with
  | .error e => .error e
  | .ok true =>
    match hGetItem h data (opName ++ "_by_pk") with
    | .error e => .error e
    | .ok v =>
      match hDerefDict h data, hDerefDict h v with
      | some ds, some vs =>
        match hPop (h.alloc (.dict (pyMerge ds vs))).2 h.next (opName ++ "_by_pk") with
        | .error e => .error e
        | .ok h2 => heapRelayifyReturn h2 (.ref h.next) opName
      | _, _ => .error "TypeError"
  | .ok false => heapRelayifyReturn h data opName

/-- Allocate the edge dicts of the comprehension in order, `i` the 1-based
position. -/
def allocEdges : Heap → List HVal → Nat → List HVal × Heap
  | h, [], _ => ([], h)
  | h, x :: rest, i =>
    let a := h.next
    let h1 := (h.alloc (.dict [("cursor", .str (toString i)), ("node", x)])).2
    let r := allocEdges h1 rest (i + 1)
    (.ref a :: r.1, r.2)

/-- Lines 166-181 of `relayify` over the store, after `relay_response` has
been allocated at `r` and the count `tcv` found non-`None`: set
`totalCount`, allocate and set `pageInfo`, and when the count is `> 0`
build and attach the edges and return `relay_response`; otherwise fall
through (the envelope writes remain as a dead allocation). -/
def heapRelayifyEnvelope (h : Heap) (data : HVal) (opName : String)
    (r : Nat) (tcv : HVal) : Except String (HVal × Heap) :=
  match hSetItem h r "totalCount" tcv with
  | .error e => .error e
  | .ok h4 =>
    match hSetItem
        (h4.alloc (.dict [("hasNextPage", .bool false), ("endCursor", .null)])).2
        r "pageInfo" (.ref h4.next) with
    | .error e => .error e
    | .ok h6 =>
      match hGtZero tcv with
      | .error e => .error e
      | .ok false => heapRelayifyFallthrough h6 data opName
      | .ok true =>
        match hGetAllocD h6 data opName (.list []) with
        | .error e => .error e
        | .ok (items, h7) =>
          match hIter h7 items with
          | .error e => .error e
          | .ok xs =>
            match hSetItem
                ((allocEdges h7 xs 1).2.alloc (.list (allocEdges h7 xs 1).1)).2
                r "edges" (.ref (allocEdges h7 xs 1).2.next) with
            | .error e => .error e
            | .ok h10 => .ok (.ref r, h10)

/-- `DataclassesRenderer.relayify` over the store (renderer_dataclasses.py
lines 142-191): the aggregate-count chain with its two allocated `{}`
defaults, the `relay_response = {}` allocation (performed before the
`is not None` test, as in the source), then the envelope or the
fall-through. -/
def heapRelayify (h : Heap) (response : HVal) (key : String) :
    Except String (HVal × Heap) :=
  match hPassthroughCheck h response with
  | .error e => .error e
  | .ok true => .ok (response, h)
  | .ok false =>
    match hGetItem h response "data" with
    | .error e => .error e
    | .ok data =>
      match hGetAllocD h data (normKey key ++ "_aggregate") (.dict []) with
      | .error e => .error e
      | .ok (a1, h1) =>
        match hGetAllocD h1 a1 "aggregate" (.dict []) with
        | .error e => .error e
        | .ok (a2, h2) =>
          match hGetPrimD h2 a2 "count" .null with
          | .error e => .error e
          | .ok tc =>
            match tc with
            | .null => heapRelayifyFallthrough (h2.alloc (.dict [])).2 data (normKey key)
            | tcv => heapRelayifyEnvelope (h2.alloc (.dict [])).2 data (normKey key) h2.next tcv

/-- The final heap extends the initial one: no address allocated before
the call has its contents changed. -/
def HeapExtends (h0 h1 : Heap) : Prop :=
  h0.next ≤ h1.next ∧ ∀ a, a < h0.next → h1.lookup a = h0.lookup a

/-- A concrete two-object heap: the response dict at address 0, its nested
data dict at address 1. -/
def demoHeap : Heap :=
  ⟨[(0, .dict [("data", .ref 1)]), (1, .dict [("item", .num 5)])], 2⟩

/-- The heap after running `simplify` on `demoHeap`: only the allocated
`[]` default was added; addresses 0 and 1 are untouched. -/
def demoHeapAfter : Heap :=
  ⟨[(0, .dict [("data", .ref 1)]), (1, .dict [("item", .num 5)]), (2, .list [])], 3⟩

/-! ### Helper lemmas about association-list lookup and the Python dict
operations. -/

theorem lookup_append_of_isSome {α : Type} (l₁ l₂ : List (String × α)) (k : String)
    (h : (l₁.lookup k).isSome) : (l₁ ++ l₂).lookup k = l₁.lookup k := by
  induction l₁ with
  | nil => simp [List.lookup] at h
  | cons p rest ih =>
    cases hk : k == p.1 with
    | true => simp [List.lookup, hk]
    | false =>
      simp only [List.lookup, hk] at h ⊢
      exact ih h

theorem lookup_map_keyPreserving {α β : Type} (a : List (String × α))
    (g : String × α → β) (k : String) :
    ((a.map (fun p => (p.1, g p))).lookup k).isSome = (a.lookup k).isSome := by
  induction a with
  | nil => rfl
  | cons p rest ih =>
    cases hk : k == p.1 with
    | true => simp [List.lookup, hk]
    | false => simpa [List.lookup, hk] using ih

theorem lookup_pyMerge_isSome_left {α : Type} (a b : List (String × α)) (k : String)
    (h : (a.lookup k).isSome) : ((pyMerge a b).lookup k).isSome := by
  unfold pyMerge
  rw [lookup_append_of_isSome]
  · rw [lookup_map_keyPreserving]; exact h
  · rw [lookup_map_keyPreserving]; exact h

theorem string_append_right_ne (s : String) {t u : String} (h : t ≠ u) :
    s ++ t ≠ s ++ u := by
  intro he
  apply h
  have hd : s.data ++ t.data = s.data ++ u.data := by
    rw [← String.data_append, ← String.data_append, he]
  exact String.ext (List.append_cancel_left hd)

theorem string_ne_append_of_data_ne_nil (s t : String) (h : t.data ≠ []) :
    s ≠ s ++ t := by
  intro he
  apply h
  have hd := congrArg String.data he
  rw [String.data_append] at hd
  have hl := congrArg List.length hd
  rw [List.length_append] at hl
  have : t.data.length = 0 := by omega
  exact List.length_eq_zero.mp this

theorem exceptIsOk_exists {ε α : Type} (x : Except ε α) (h : x.isOk = true) :
    ∃ v, x = .ok v := by
  cases x with
  | ok v => exact ⟨v, rfl⟩
  | error e => simp [Except.isOk, Except.toBool] at h

theorem passthroughCheck_obj_data_none (fs : List (String × JSON))
    (hd : List.lookup "data" fs = none) :
    passthroughCheck (JSON.obj fs) = .ok true := by
  simp [passthroughCheck, pyContains, hd]

theorem passthroughCheck_obj_errors (fs : List (String × JSON)) (e : JSON)
    (he : List.lookup "errors" fs = some e) (ht : pyTruthy e = true) :
    passthroughCheck (JSON.obj fs) = .ok true := by
  cases hd : List.lookup "data" fs with
  | none => exact passthroughCheck_obj_data_none fs hd
  | some d => simp [passthroughCheck, pyContains, pyGetItem, hd, he, ht]

theorem passthroughCheck_obj_false (fs : List (String × JSON)) (d : JSON)
    (hd : List.lookup "data" fs = some d) (herr : errorsTruthy fs = false) :
    passthroughCheck (JSON.obj fs) = .ok false := by
  unfold errorsTruthy at herr
  cases he : List.lookup "errors" fs with
  | none => simp [passthroughCheck, pyContains, hd, he]
  | some e =>
    rw [he] at herr
    have herr2 : pyTruthy e = false := herr
    simp [passthroughCheck, pyContains, pyGetItem, hd, he, herr2]

theorem simplify_total_aux (r : JSON) (k : String)
    (h : simplifyTotalOn r k = true) : (simplify r k).isOk = true := by
  cases r with
  | null => simp [simplifyTotalOn] at h
  | bool b => simp [simplifyTotalOn] at h
  | num n => simp [simplifyTotalOn] at h
  | str s => simp [simplifyTotalOn] at h
  | arr xs => simp [simplifyTotalOn] at h
  | obj fs =>
    cases hd : List.lookup "data" fs with
    | none => simp [simplify, passthroughCheck_obj_data_none fs hd, Except.isOk, Except.toBool]
    | some d =>
      by_cases herr : errorsTruthy fs = true
      · obtain ⟨e, he, ht⟩ : ∃ e, List.lookup "errors" fs = some e ∧ pyTruthy e = true := by
          unfold errorsTruthy at herr
          cases he : List.lookup "errors" fs with
          | none => rw [he] at herr; simp at herr
          | some e => rw [he] at herr; exact ⟨e, rfl, herr⟩
        simp [simplify, passthroughCheck_obj_errors fs e he ht, Except.isOk, Except.toBool]
      · have herr' : errorsTruthy fs = false := by
          cases hb : errorsTruthy fs
          · rfl
          · exact absurd hb herr
        have hpass := passthroughCheck_obj_false fs d hd herr'
        cases d with
        | obj ds =>
          have hsafe : simplifySafeData ds (normKey k) = true := by
            simp only [simplifyTotalOn, hd, herr', Bool.false_or] at h
            exact h
          unfold simplifySafeData at hsafe
          cases hb : List.lookup (normKey k ++ "_by_pk") ds with
          | none =>
            simp [simplify, hpass, pyGetItem, hd, pyContains, hb, pyGet, Except.isOk, Except.toBool]
          | some v =>
            rw [hb] at hsafe
            cases v with
            | null =>
              simp [simplify, hpass, pyGetItem, hd, pyContains, hb, Except.isOk, Except.toBool]
            | obj vs =>
              have hm : ((pyMerge ds vs).lookup (normKey k ++ "_by_pk")).isSome :=
                lookup_pyMerge_isSome_left ds vs _ (by rw [hb]; rfl)
              simp [simplify, hpass, pyGetItem, hd, pyContains, hb, pyPop, hm, Except.isOk, Except.toBool]
            | bool b => simp at hsafe
            | num n => simp at hsafe
            | str s => simp at hsafe
            | arr xs => simp at hsafe
        | null => simp [simplifyTotalOn, hd, herr'] at h
        | bool b => simp [simplifyTotalOn, hd, herr'] at h
        | num n => simp [simplifyTotalOn, hd, herr'] at h
        | str s => simp [simplifyTotalOn, hd, herr'] at h
        | arr xs => simp [simplifyTotalOn, hd, herr'] at h

theorem relayifyReturn_total (ds : List (String × JSON)) (k' : String) :
    (relayifyReturn (JSON.obj ds) k').isOk = true := by
  by_cases hn : ds.length > 1
  · simp [relayifyReturn, pyLen, hn, Except.isOk, Except.toBool]
  · simp [relayifyReturn, pyLen, hn, pyGet, Except.isOk, Except.toBool]

theorem relayifyFallthrough_total (ds : List (String × JSON)) (k' : String)
    (h : relayifySafeFallthrough ds k' = true) :
    (relayifyFallthrough (JSON.obj ds) k').isOk = true := by
  unfold relayifySafeFallthrough at h
  cases hb : List.lookup (k' ++ "_by_pk") ds with
  | none =>
    simpa [relayifyFallthrough, pyContains, hb] using relayifyReturn_total ds k'
  | some v =>
    rw [hb] at h
    cases v with
    | obj vs =>
      have hm : ((pyMerge ds vs).lookup (k' ++ "_by_pk")).isSome :=
        lookup_pyMerge_isSome_left ds vs _ (by rw [hb]; rfl)
      simpa [relayifyFallthrough, pyContains, hb, pyGetItem, pyPop, hm] using
        relayifyReturn_total ((pyMerge ds vs).filter (fun p => !(p.1 == k' ++ "_by_pk"))) k'
    | null => simp at h
    | bool b => simp at h
    | num n => simp at h
    | str s => simp at h
    | arr xs => simp at h

theorem relayify_total_aux (r : JSON) (k : String)
    (h : relayifyTotalOn r k = true) : (relayify r k).isOk = true := by
  cases r with
  | null => simp [relayifyTotalOn] at h
  | bool b => simp [relayifyTotalOn] at h
  | num n => simp [relayifyTotalOn] at h
  | str s => simp [relayifyTotalOn] at h
  | arr xs => simp [relayifyTotalOn] at h
  | obj fs =>
    cases hd : List.lookup "data" fs with
    | none => simp [relayify, passthroughCheck_obj_data_none fs hd, Except.isOk, Except.toBool]
    | some d =>
      by_cases herr : errorsTruthy fs = true
      · obtain ⟨e, he, ht⟩ : ∃ e, List.lookup "errors" fs = some e ∧ pyTruthy e = true := by
          unfold errorsTruthy at herr
          cases he : List.lookup "errors" fs with
          | none => rw [he] at herr; simp at herr
          | some e => rw [he] at herr; exact ⟨e, rfl, herr⟩
        simp [relayify, passthroughCheck_obj_errors fs e he ht, Except.isOk, Except.toBool]
      · have herr' : errorsTruthy fs = false := by
          cases hb : errorsTruthy fs
          · rfl
          · exact absurd hb herr
        have hpass := passthroughCheck_obj_false fs d hd herr'
        cases d with
        | obj ds =>
          have hsafe : relayifySafeData ds (normKey k) = true := by
            simp only [relayifyTotalOn, hd, herr', Bool.false_or] at h
            exact h
          unfold relayifySafeData at hsafe
          simp only [relayify, hpass, pyGetItem, hd, pyGet]
          cases he1 : (List.lookup (normKey k ++ "_aggregate") ds).getD (JSON.obj []) with
          | obj a1s =>
            simp only [he1] at hsafe
            simp only [pyGet]
            cases he2 : (List.lookup "aggregate" a1s).getD (JSON.obj []) with
            | obj a2s =>
              simp only [he2] at hsafe
              simp only [pyGet]
              cases he3 : (List.lookup "count" a2s).getD JSON.null with
              | null =>
                simp only [he3] at hsafe
                exact relayifyFallthrough_total ds (normKey k) hsafe
              | num n =>
                simp only [he3] at hsafe
                by_cases hn : 0 < n
                · rw [if_pos hn] at hsafe
                  unfold relayifySafeItems at hsafe
                  simp only [pyGtZero, decide_eq_true hn]
                  cases he4 : (List.lookup (normKey k) ds).getD (JSON.arr []) with
                  | arr xs => simp [pyIter, he4, Except.isOk, Except.toBool]
                  | str s => simp [pyIter, he4, Except.isOk, Except.toBool]
                  | obj gs => simp [pyIter, he4, Except.isOk, Except.toBool]
                  | null => rw [he4] at hsafe; simp at hsafe
                  | bool b => rw [he4] at hsafe; simp at hsafe
                  | num m => rw [he4] at hsafe; simp at hsafe
                · rw [if_neg hn] at hsafe
                  have hdec : decide (0 < n) = false := by simp [hn]
                  simp only [pyGtZero, hdec]
                  exact relayifyFallthrough_total ds (normKey k) hsafe
              | bool b =>
                simp only [he3] at hsafe
                cases b with
                | true =>
                  have hsafe2 : relayifySafeItems ds (normKey k) = true := hsafe
                  unfold relayifySafeItems at hsafe2
                  simp only [pyGtZero]
                  cases he4 : (List.lookup (normKey k) ds).getD (JSON.arr []) with
                  | arr xs => simp [pyIter, he4, Except.isOk, Except.toBool]
                  | str s => simp [pyIter, he4, Except.isOk, Except.toBool]
                  | obj gs => simp [pyIter, he4, Except.isOk, Except.toBool]
                  | null => rw [he4] at hsafe2; simp at hsafe2
                  | bool b => rw [he4] at hsafe2; simp at hsafe2
                  | num m => rw [he4] at hsafe2; simp at hsafe2
                | false =>
                  have hsafe2 : relayifySafeFallthrough ds (normKey k) = true := hsafe
                  simp only [pyGtZero]
                  exact relayifyFallthrough_total ds (normKey k) hsafe2
              | str s => simp only [he3] at hsafe; simp at hsafe
              | arr xs => simp only [he3] at hsafe; simp at hsafe
              | obj os => simp only [he3] at hsafe; simp at hsafe
            | null => simp only [he2] at hsafe; simp at hsafe
            | bool b => simp only [he2] at hsafe; simp at hsafe
            | num n => simp only [he2] at hsafe; simp at hsafe
            | str s => simp only [he2] at hsafe; simp at hsafe
            | arr xs => simp only [he2] at hsafe; simp at hsafe
          | null => simp only [he1] at hsafe; simp at hsafe
          | bool b => simp only [he1] at hsafe; simp at hsafe
          | num n => simp only [he1] at hsafe; simp at hsafe
          | str s => simp only [he1] at hsafe; simp at hsafe
          | arr xs => simp only [he1] at hsafe; simp at hsafe
        | null => simp [relayifyTotalOn, hd, herr'] at h
        | bool b => simp [relayifyTotalOn, hd, herr'] at h
        | num n => simp [relayifyTotalOn, hd, herr'] at h
        | str s => simp [relayifyTotalOn, hd, herr'] at h
        | arr xs => simp [relayifyTotalOn, hd, herr'] at h

/-! ### Claim theorems for the response-shaping functions -/

/-- C1 (counterexample): the claim "simplify and relayify are total: they
never raise an exception, for every input" is false on the code.  On the
response `{"data": null}` (a malformed but type-correct `Dict[str, Any]`),
`simplify` raises `TypeError` at `"item_by_pk" in data` and `relayify`
raises `AttributeError` at `data.get(aggregate_key, {})`, since `data` is
`None`. -/
theorem shaping_raises_on_null_data :
    simplify (JSON.obj [("data", JSON.null)]) "item" = .error "TypeError" ∧
    relayify (JSON.obj [("data", JSON.null)]) "item" = .error "AttributeError" :=
  ⟨rfl, rfl⟩

/-- C1 (amended): `simplify` and `relayify` are total on well-shaped
responses — a dict response whose `data` entry is absent, or whose
`errors` entry is truthy, or whose `data` value is a dict with a
well-shaped by-pk entry (and, for `relayify`, a well-shaped
aggregate-count chain and iterable items entry).  Malformed responses
outside this class, such as `{"data": null}`, can raise. -/
theorem shaping_total_on_wellshaped (r : JSON) (k : String) :
    (simplifyTotalOn r k = true → ∃ v, simplify r k = .ok v) ∧
    (relayifyTotalOn r k = true → ∃ v, relayify r k = .ok v) :=
  ⟨fun h => exceptIsOk_exists _ (simplify_total_aux r k h),
   fun h => exceptIsOk_exists _ (relayify_total_aux r k h)⟩

/-- Witness for C1's amended theorem at a concrete well-shaped response. -/
theorem shaping_total_on_wellshaped_witness :
    (∃ v, simplify (JSON.obj [("data", JSON.obj
        [("item_by_pk", JSON.obj [("x", JSON.num 1)]), ("extra", JSON.num 2)])]) "item"
      = .ok v) ∧
    (∃ v, relayify (JSON.obj [("data", JSON.obj
        [("item_by_pk", JSON.obj [("x", JSON.num 1)]), ("extra", JSON.num 2)])]) "item"
      = .ok v) :=
  ⟨(shaping_total_on_wellshaped (JSON.obj [("data", JSON.obj
      [("item_by_pk", JSON.obj [("x", JSON.num 1)]), ("extra", JSON.num 2)])]) "item").1 rfl,
   (shaping_total_on_wellshaped (JSON.obj [("data", JSON.obj
      [("item_by_pk", JSON.obj [("x", JSON.num 1)]), ("extra", JSON.num 2)])]) "item").2 rfl⟩

/-- C2 (counterexample): with key `"item"`, `simplify` on
`{"data": {"insert_item_by_pk": null}}` returns `[]`, not `{}` — dict
membership is exact, and `"item_by_pk"` is not a key of the data dict
(`"insert_item_by_pk"` is), so the by-pk branch is not taken and
`data.get("item", [])` yields the empty-list default.  Python `[] == {}`
is false. -/
theorem simplify_bypk_scenario_key_item :
    simplify (JSON.obj [("data", JSON.obj [("insert_item_by_pk", JSON.null)])]) "item"
      = .ok (JSON.arr []) ∧ JSON.arr [] ≠ JSON.obj [] :=
  ⟨rfl, fun h => JSON.noConfusion h⟩

/-- C2 (amended): `simplify` applied to the response
`{"data": {"insert_item_by_pk": null}}` with key `"insert_item"` (the
normalized mutation key actually matching the `_by_pk` entry) returns the
empty dict `{}`. -/
theorem simplify_bypk_scenario_key_insert_item :
    simplify (JSON.obj [("data", JSON.obj [("insert_item_by_pk", JSON.null)])]) "insert_item"
      = .ok (JSON.obj []) := rfl

/-- C4 (counterexample): on
`{"data": {"item_aggregate": {"aggregate": {"count": 0}}}}` with key
`"item"`, `relayify` does not return the paged envelope
`{totalCount: 0, pageInfo: {...}}`: in the source the
`return relay_response` sits inside `if total_count > 0:`, so with count 0
control falls through and `data.get("item", [])` yields `[]`. -/
theorem relayify_zero_count_not_envelope :
    relayify (JSON.obj [("data", JSON.obj [("item_aggregate",
        JSON.obj [("aggregate", JSON.obj [("count", JSON.num 0)])])])]) "item"
      = .ok (JSON.arr []) ∧
    JSON.arr [] ≠ JSON.obj [("totalCount", JSON.num 0),
        ("pageInfo", JSON.obj [("hasNextPage", JSON.bool false), ("endCursor", JSON.null)])] :=
  ⟨rfl, fun h => JSON.noConfusion h⟩

/-- C4 (amended): for every key, when `<key>_aggregate.aggregate.count` is
present and equal to `0` (no passthrough), `relayify` never returns the
paged envelope: it falls through to the by-pk / multi-key logic, and with
the aggregate entry as the only data entry the result is the empty list
`[]`, which in particular carries no `edges` key. -/
theorem relayify_zero_count_falls_through (k : String) :
    relayify (JSON.obj [("data", JSON.obj [(normKey k ++ "_aggregate",
        JSON.obj [("aggregate", JSON.obj [("count", JSON.num 0)])])])]) k
      = .ok (JSON.arr []) ∧
    jsonHasKey (JSON.arr []) "edges" = false := by
  refine ⟨?_, rfl⟩
  have hne1 : ((normKey k ++ "_by_pk") == (normKey k ++ "_aggregate")) = false := by
    rw [beq_eq_false_iff_ne]
    exact string_append_right_ne _ (fun h =>
      absurd (congrArg String.data h) (by decide))
  have hne2 : ((normKey k) == (normKey k ++ "_aggregate")) = false := by
    rw [beq_eq_false_iff_ne]
    exact string_ne_append_of_data_ne_nil _ _ (by decide)
  have hpass : passthroughCheck (JSON.obj [("data", JSON.obj [(normKey k ++ "_aggregate",
      JSON.obj [("aggregate", JSON.obj [("count", JSON.num 0)])])])]) = .ok false := rfl
  have hdata : pyGetItem (JSON.obj [("data", JSON.obj [(normKey k ++ "_aggregate",
      JSON.obj [("aggregate", JSON.obj [("count", JSON.num 0)])])])]) "data"
      = .ok (JSON.obj [(normKey k ++ "_aggregate",
          JSON.obj [("aggregate", JSON.obj [("count", JSON.num 0)])])]) := rfl
  simp only [relayify, hpass, hdata]
  simp [pyGet, List.lookup, hne1, hne2, pyGtZero, relayifyFallthrough, pyContains,
    relayifyReturn, pyLen]

/-- C5: `relayify` on
`{"data": {"item_aggregate": {"aggregate": {"count": 2}}, "item":
[{"id":1},{"id":2}]}}` with key `"item"` returns the relay envelope with
`totalCount` 2, the placeholder `pageInfo`, and the items wrapped in order
with 1-based positions as string cursors. -/
theorem relayify_count_two_scenario :
    relayify (JSON.obj
      [("data", JSON.obj
        [("item_aggregate", JSON.obj [("aggregate", JSON.obj [("count", JSON.num 2)])]),
         ("item", JSON.arr [JSON.obj [("id", JSON.num 1)], JSON.obj [("id", JSON.num 2)]])])])
      "item"
      = .ok (JSON.obj
        [("totalCount", JSON.num 2),
         ("pageInfo", JSON.obj [("hasNextPage", JSON.bool false), ("endCursor", JSON.null)]),
         ("edges", JSON.arr
           [JSON.obj [("cursor", JSON.str "1"), ("node", JSON.obj [("id", JSON.num 1)])],
            JSON.obj [("cursor", JSON.str "2"), ("node", JSON.obj [("id", JSON.num 2)])]])]) :=
  rfl

/-- C6: for every dict response whose `data` key is absent, or whose
`errors` key is present with a truthy (non-empty) value, both `simplify`
and `relayify` return the response unchanged, for every key argument. -/
theorem passthrough_returns_response_unchanged (fs : List (String × JSON)) (k : String)
    (h : List.lookup "data" fs = none ∨
         ∃ e, List.lookup "errors" fs = some e ∧ pyTruthy e = true) :
    simplify (JSON.obj fs) k = .ok (JSON.obj fs) ∧
    relayify (JSON.obj fs) k = .ok (JSON.obj fs) := by
  have hpass : passthroughCheck (JSON.obj fs) = .ok true := by
    rcases h with hd | ⟨e, he, ht⟩
    · exact passthroughCheck_obj_data_none fs hd
    · exact passthroughCheck_obj_errors fs e he ht
  exact ⟨by simp [simplify, hpass], by simp [relayify, hpass]⟩

/-- Witness for C6 at a concrete error-bearing response. -/
theorem passthrough_returns_response_unchanged_witness :
    simplify (JSON.obj [("data", JSON.obj []), ("errors", JSON.arr [JSON.str "boom"])]) "item"
      = .ok (JSON.obj [("data", JSON.obj []), ("errors", JSON.arr [JSON.str "boom"])]) ∧
    relayify (JSON.obj [("data", JSON.obj []), ("errors", JSON.arr [JSON.str "boom"])]) "item"
      = .ok (JSON.obj [("data", JSON.obj []), ("errors", JSON.arr [JSON.str "boom"])]) :=
  passthrough_returns_response_unchanged
    [("data", JSON.obj []), ("errors", JSON.arr [JSON.str "boom"])] "item"
    (Or.inr ⟨JSON.arr [JSON.str "boom"], rfl, rfl⟩)

/-- C7 (counterexample): a value produced by `simplify` with no `errors`
key and no `_by_pk`/`_aggregate` marker keys on which re-applying
`simplify` does not yield the same dict: `simplify` on
`{"data": {"item": {"data": {"x": 1}}}}` with key `"item"` produces
`{"data": {"x": 1}}`, and re-applying `simplify` to that value yields
`[]`, because the produced dict happens to carry a `"data"` key and so is
not passed through. -/
theorem simplify_not_idempotent_with_data_key :
    simplify (JSON.obj [("data", JSON.obj
        [("item", JSON.obj [("data", JSON.obj [("x", JSON.num 1)])])])]) "item"
      = .ok (JSON.obj [("data", JSON.obj [("x", JSON.num 1)])]) ∧
    hasNoErrorsKey (JSON.obj [("data", JSON.obj [("x", JSON.num 1)])]) = true ∧
    hasNoMarkerKeys (JSON.obj [("data", JSON.obj [("x", JSON.num 1)])]) = true ∧
    simplify (JSON.obj [("data", JSON.obj [("x", JSON.num 1)])]) "item" = .ok (JSON.arr []) ∧
    JSON.arr [] ≠ JSON.obj [("data", JSON.obj [("x", JSON.num 1)])] :=
  ⟨rfl, rfl, rfl, rfl, fun h => JSON.noConfusion h⟩

/-- C7 (amended): for every list or dict produced by `simplify` that has
no `errors` key, no `_by_pk`/`_aggregate` marker keys, and additionally no
`"data"` member (the condition the counterexample forces), re-applying
`simplify` with the same key yields the same value. -/
theorem simplify_idempotent_on_simplified_shapes (r : JSON) (k : String) (v : JSON)
    (hprod : simplify r k = .ok v)
    (hnodata : hasNoDataMember v = true)
    (hnoerr : hasNoErrorsKey v = true)
    (hnomark : hasNoMarkerKeys v = true) :
    simplify v k = .ok v := by
  cases v with
  | obj fs =>
    have hd : List.lookup "data" fs = none := by
      simpa [hasNoDataMember, Option.isNone_iff_eq_none] using hnodata
    simp [simplify, passthroughCheck_obj_data_none fs hd]
  | arr xs =>
    have hc : (xs.any fun x => match x with | .str t => t == "data" | _ => false) = false := by
      simpa [hasNoDataMember] using hnodata
    simp [simplify, passthroughCheck, pyContains, hc]
  | null => simp [hasNoDataMember] at hnodata
  | bool b => simp [hasNoDataMember] at hnodata
  | num n => simp [hasNoDataMember] at hnodata
  | str s => simp [hasNoDataMember] at hnodata

/-- Witness for C7's amended theorem: `simplify` produces `[1]` from
`{"data": {"item": [1]}}`, and re-applying returns it unchanged. -/
theorem simplify_idempotent_on_simplified_shapes_witness :
    simplify (JSON.arr [JSON.num 1]) "item" = .ok (JSON.arr [JSON.num 1]) :=
  simplify_idempotent_on_simplified_shapes
    (JSON.obj [("data", JSON.obj [("item", JSON.arr [JSON.num 1])])]) "item"
    (JSON.arr [JSON.num 1]) rfl rfl rfl rfl

/-! ### Stable-sort lemmas: Python `sorted` with a small integer key is the
stable partition by key value. -/

theorem stableInsert_append_lt {α : Type} (key : α → Nat) (x : α) (A B : List α)
    (hA : ∀ a ∈ A, key a < key x) :
    stableInsert key x (A ++ B) = A ++ stableInsert key x B := by
  induction A with
  | nil => rfl
  | cons a as ih =>
    simp only [List.cons_append, stableInsert]
    rw [if_pos (hA a (List.mem_cons_self a as))]
    simp only [List.append_eq]
    rw [ih (fun b hb => hA b (List.mem_cons_of_mem a hb))]

theorem stableInsert_of_le {α : Type} (key : α → Nat) (x : α) (B : List α)
    (hB : ∀ b ∈ B, key x ≤ key b) :
    stableInsert key x B = x :: B := by
  cases B with
  | nil => rfl
  | cons b bs =>
    simp only [stableInsert]
    rw [if_neg (Nat.not_lt.mpr (hB b (List.mem_cons_self b bs)))]

theorem pySorted_partition_two {α : Type} (key : α → Nat) (l : List α)
    (h : ∀ a ∈ l, key a ≤ 1) :
    pySorted key l
      = l.filter (fun a => key a == 0) ++ l.filter (fun a => key a == 1) := by
  induction l with
  | nil => rfl
  | cons x xs ih =>
    have hx := h x (List.mem_cons_self x xs)
    have hxs : ∀ a ∈ xs, key a ≤ 1 := fun a ha => h a (List.mem_cons_of_mem x ha)
    have hstep : pySorted key (x :: xs) = stableInsert key x (pySorted key xs) := rfl
    rw [hstep, ih hxs]
    have hf0 : ∀ a ∈ xs.filter (fun a => key a == 0), key a = 0 := by
      intro a ha; simpa using (List.mem_filter.mp ha).2
    have hf1 : ∀ a ∈ xs.filter (fun a => key a == 1), key a = 1 := by
      intro a ha; simpa using (List.mem_filter.mp ha).2
    have hcases : key x = 0 ∨ key x = 1 := by omega
    rcases hcases with hkx | hkx
    · rw [stableInsert_of_le key x _ (by
        intro b hb; rw [hkx]; exact Nat.zero_le _)]
      simp [List.filter_cons, hkx]
    · rw [stableInsert_append_lt key x _ _ (by
        intro a ha; rw [hkx, hf0 a ha]; exact Nat.zero_lt_one)]
      rw [stableInsert_of_le key x _ (by
        intro b hb; rw [hkx, hf1 b hb])]
      simp [List.filter_cons, hkx]

theorem pySorted_partition_four {α : Type} (key : α → Nat) (l : List α)
    (h : ∀ a ∈ l, key a ≤ 3) :
    pySorted key l
      = l.filter (fun a => key a == 0) ++ l.filter (fun a => key a == 1)
        ++ l.filter (fun a => key a == 2) ++ l.filter (fun a => key a == 3) := by
  induction l with
  | nil => rfl
  | cons x xs ih =>
    have hx := h x (List.mem_cons_self x xs)
    have hxs : ∀ a ∈ xs, key a ≤ 3 := fun a ha => h a (List.mem_cons_of_mem x ha)
    have hstep : pySorted key (x :: xs) = stableInsert key x (pySorted key xs) := rfl
    rw [hstep, ih hxs]
    have hf0 : ∀ a ∈ xs.filter (fun a => key a == 0), key a = 0 := by
      intro a ha; simpa using (List.mem_filter.mp ha).2
    have hf1 : ∀ a ∈ xs.filter (fun a => key a == 1), key a = 1 := by
      intro a ha; simpa using (List.mem_filter.mp ha).2
    have hf2 : ∀ a ∈ xs.filter (fun a => key a == 2), key a = 2 := by
      intro a ha; simpa using (List.mem_filter.mp ha).2
    have hf3 : ∀ a ∈ xs.filter (fun a => key a == 3), key a = 3 := by
      intro a ha; simpa using (List.mem_filter.mp ha).2
    have hcases : key x = 0 ∨ key x = 1 ∨ key x = 2 ∨ key x = 3 := by omega
    rcases hcases with hkx | hkx | hkx | hkx
    · rw [List.append_assoc, List.append_assoc]
      rw [stableInsert_of_le key x _ (by
        intro b hb; rw [hkx]; exact Nat.zero_le _)]
      simp [List.filter_cons, hkx, List.append_assoc]
    · rw [List.append_assoc, List.append_assoc]
      rw [stableInsert_append_lt key x _ _ (by
        intro a ha; rw [hkx, hf0 a ha]; exact Nat.zero_lt_one)]
      rw [stableInsert_of_le key x _ (by
        intro b hb
        rw [hkx]
        rcases List.mem_append.mp hb with h1 | h23
        · rw [hf1 b h1]
        · rcases List.mem_append.mp h23 with h2 | h3
          · rw [hf2 b h2]; omega
          · rw [hf3 b h3]; omega)]
      simp [List.filter_cons, hkx, List.append_assoc]
    · rw [List.append_assoc, List.append_assoc, ← List.append_assoc]
      rw [stableInsert_append_lt key x _ _ (by
        intro a ha
        rw [hkx]
        rcases List.mem_append.mp ha with h0 | h1
        · rw [hf0 a h0]; omega
        · rw [hf1 a h1]; omega)]
      rw [stableInsert_of_le key x _ (by
        intro b hb
        rw [hkx]
        rcases List.mem_append.mp hb with h2 | h3
        · rw [hf2 b h2]
        · rw [hf3 b h3]; omega)]
      simp [List.filter_cons, hkx, List.append_assoc]
    · rw [List.append_assoc, List.append_assoc, ← List.append_assoc, ← List.append_assoc]
      rw [stableInsert_append_lt key x _ _ (by
        intro a ha
        rw [hkx]
        rcases List.mem_append.mp ha with h01 | h2
        · rcases List.mem_append.mp h01 with h0 | h1
          · rw [hf0 a h0]; omega
          · rw [hf1 a h1]; omega
        · rw [hf2 a h2]; omega)]
      rw [stableInsert_of_le key x _ (by
        intro b hb; rw [hkx, hf3 b hb])]
      simp [List.filter_cons, hkx, List.append_assoc]

/-- C8: in the output of `render`, for any `ParsedQuery`, every enum type
is emitted (in the enum section, in IR order) before any object or
operation type, all `ParsedObject` entries are emitted before all
`ParsedOperation` entries, and among objects (and among operations) the
original IR order is preserved: the emitted lines decompose as preamble,
then the enum section, then the types with the stably sorted order equal
to the IR's objects followed by the IR's operations. -/
theorem render_emits_enums_before_objects_before_operations
    (cfg : Config) (pq : ParsedQuery) :
    renderLines cfg pq =
      renderPreambleLines cfg
        ++ (if pq.enums.isEmpty then []
            else enumFieldHelperLines ++ (pq.enums.map renderEnumLines).flatten)
        ++ ((pq.objects.filter (fun t => !t.isOperation)
              ++ pq.objects.filter (fun t => t.isOperation)).map
            (renderTopLevelLines cfg pq)).flatten := by
  unfold renderLines
  rw [pySorted_partition_two operationSortKey pq.objects
    (by intro a _; cases a <;> simp [operationSortKey])]
  rw [List.filter_congr (fun (t : TopLevelType) _ => by
    cases t <;> rfl : ∀ t ∈ pq.objects,
      (operationSortKey t == 0) = (!t.isOperation))]
  rw [List.filter_congr (fun (t : TopLevelType) _ => by
    cases t <;> rfl : ∀ t ∈ pq.objects,
      (operationSortKey t == 1) = (t.isOperation))]

/-- C9: within every rendered object, the fields are emitted re-sorted by
the stable two-boolean key: fields whose resolved type is the date-time
scalar `"DateTime"` come first, then non-nullable before nullable, with
the original order preserved among ties — the emitted field lines are the
four stable partitions in that order. -/
theorem render_object_fields_sorted (pq : ParsedQuery) (nm : String)
    (parents : List String) (children : List ParsedObject)
    (fields : List ParsedField) :
    renderObjectLines pq (.mk nm parents children fields) =
      ["@dataclass_json", "@dataclass",
       "class " ++ nm
         ++ (if parents.isEmpty then "" else "(" ++ ", ".intercalate parents ++ ")")
         ++ ":"]
      ++ indent4
        ((children.map (renderObjectLines pq)).flatten
          ++ ((fields.filter (fun f => f.type == "DateTime" && !f.nullable)
                ++ fields.filter (fun f => f.type == "DateTime" && f.nullable)
                ++ fields.filter (fun f => !(f.type == "DateTime") && !f.nullable)
                ++ fields.filter (fun f => !(f.type == "DateTime") && f.nullable)).map
              (renderFieldLine pq))
          ++ (if children.isEmpty && fields.isEmpty then ["pass"] else []))
      ++ [""] := by
  rw [renderObjectLines]
  rw [List.attach_map_val children (renderObjectLines pq)]
  rw [pySorted_partition_four fieldSortKey fields (by
    intro f _
    unfold fieldSortKey
    split <;> split <;> omega)]
  rw [List.filter_congr (fun (f : ParsedField) _ => by
    unfold fieldSortKey
    cases hT : f.type == "DateTime" <;> cases hN : f.nullable <;> simp [hT, hN] :
      ∀ f ∈ fields, (fieldSortKey f == 0) = (f.type == "DateTime" && !f.nullable))]
  rw [List.filter_congr (fun (f : ParsedField) _ => by
    unfold fieldSortKey
    cases hT : f.type == "DateTime" <;> cases hN : f.nullable <;> simp [hT, hN] :
      ∀ f ∈ fields, (fieldSortKey f == 1) = (f.type == "DateTime" && f.nullable))]
  rw [List.filter_congr (fun (f : ParsedField) _ => by
    unfold fieldSortKey
    cases hT : f.type == "DateTime" <;> cases hN : f.nullable <;> simp [hT, hN] :
      ∀ f ∈ fields, (fieldSortKey f == 2) = (!(f.type == "DateTime") && !f.nullable))]
  rw [List.filter_congr (fun (f : ParsedField) _ => by
    unfold fieldSortKey
    cases hT : f.type == "DateTime" <;> cases hN : f.nullable <;> simp [hT, hN] :
      ∀ f ∈ fields, (fieldSortKey f == 3) = (!(f.type == "DateTime") && f.nullable))]

/-- C3: evaluating the batch driver on a two-document batch whose
documents both parse successfully.  `process_files_in_directory` calls
`renderer.render_shared_code()` before its `try:` block, but
`DataclassesRenderer` defines no such method, so the first document raises
an uncaught `AttributeError` and the whole batch aborts: no document
reaches analysis or emission (the returned status list is empty), and even
inside the `try:` the call `renderer.render(parsed, full_path)` would pass
two arguments to the one-argument `render` method, an uncaught
`TypeError`.  This contradicts the claim that a failing document does not
abort the processing of the others. -/
theorem batch_aborts_on_first_document :
    processFilesWithSameDomain (fun _ => .ok ())
      [("repo/app/models/item/queries/item.find.graphql", "query FindItem"),
       ("repo/app/models/item/queries/item.list.graphql", "query ListItems")]
      = ([], some (.attributeError "render_shared_code")) := rfl

/-! ### Frame lemmas: every write of the heap-level shaping functions
targets an address allocated during the call. -/

theorem heapExtends_refl (h : Heap) : HeapExtends h h :=
  ⟨Nat.le_refl _, fun _ _ => rfl⟩

theorem heapExtends_trans {h0 h1 h2 : Heap}
    (a01 : HeapExtends h0 h1) (a12 : HeapExtends h1 h2) : HeapExtends h0 h2 :=
  ⟨Nat.le_trans a01.1 a12.1,
   fun a ha => (a12.2 a (Nat.lt_of_lt_of_le ha a01.1)).trans (a01.2 a ha)⟩

theorem list_lookup_append_single {β : Type} (l : List (Nat × β)) (n a : Nat)
    (o : β) (h : a ≠ n) : (l ++ [(n, o)]).lookup a = l.lookup a := by
  induction l with
  | nil => simp [List.lookup, beq_eq_false_iff_ne.mpr h]
  | cons p rest ih =>
    cases hk : a == p.1 with
    | true => simp [List.lookup, hk]
    | false => simpa [List.lookup, hk] using ih

theorem heap_alloc_extends (h : Heap) (o : HObj) : HeapExtends h (h.alloc o).2 :=
  ⟨Nat.le_succ _,
   fun a ha => list_lookup_append_single h.store h.next a o (Nat.ne_of_lt ha)⟩

theorem list_lookup_map_update {β : Type} (l : List (Nat × β)) (b a : Nat)
    (o : β) (h : a ≠ b) :
    (l.map (fun p => match p.1 == b with | true => (p.1, o) | false => p)).lookup a
      = l.lookup a := by
  induction l with
  | nil => rfl
  | cons p rest ih =>
    cases hpb : (p.1 == b) with
    | true =>
      have hap : (a == p.1) = false :=
        beq_eq_false_iff_ne.mpr (fun hh => h (hh.trans (eq_of_beq hpb)))
      simp only [List.map_cons, hpb]
      simp only [List.lookup, hap]
      exact ih
    | false =>
      simp only [List.map_cons, hpb]
      cases hap : (a == p.1) with
      | true => simp [List.lookup, hap]
      | false =>
        simp only [List.lookup, hap]
        exact ih

theorem heap_update_extends {h0 h1 : Heap} (b : Nat) (o : HObj)
    (hb : h0.next ≤ b) (he : HeapExtends h0 h1) :
    HeapExtends h0 (h1.update b o) :=
  ⟨he.1, fun a ha => by
    have hne : a ≠ b := by omega
    have : (h1.update b o).lookup a = h1.lookup a :=
      list_lookup_map_update h1.store b a o hne
    rw [this]
    exact he.2 a ha⟩

theorem hGetAllocD_extends {h0 h1 h2 : Heap} {v x : HVal} {k : String} {d : HObj}
    (he : HeapExtends h0 h1) (hx : hGetAllocD h1 v k d = .ok (x, h2)) :
    HeapExtends h0 h2 := by
  unfold hGetAllocD at hx
  split at hx
  · split at hx
    · cases hx
      exact heapExtends_trans he (heap_alloc_extends h1 d)
    · cases hx
    · cases hx
  · cases hx

theorem hSetItem_extends {h0 h1 h2 : Heap} {b : Nat} {k : String} {v : HVal}
    (hb : h0.next ≤ b) (he : HeapExtends h0 h1)
    (hx : hSetItem h1 b k v = .ok h2) : HeapExtends h0 h2 := by
  unfold hSetItem at hx
  split at hx
  · cases hx
    exact heap_update_extends b _ hb he
  · cases hx
  · cases hx

theorem hPop_extends {h0 h1 h2 : Heap} {b : Nat} {k : String}
    (hb : h0.next ≤ b) (he : HeapExtends h0 h1)
    (hx : hPop h1 b k = .ok h2) : HeapExtends h0 h2 := by
  unfold hPop at hx
  split at hx
  · split at hx
    · cases hx
      exact heap_update_extends b _ hb he
    · cases hx
  · cases hx
  · cases hx

theorem allocEdges_extends (xs : List HVal) :
    ∀ (i : Nat) {h0 h : Heap}, HeapExtends h0 h →
      HeapExtends h0 (allocEdges h xs i).2 := by
  induction xs with
  | nil => intro i h0 h he; exact he
  | cons x rest ih =>
    intro i h0 h he
    exact ih (i + 1) (heapExtends_trans he (heap_alloc_extends h _))

theorem heapRelayifyReturn_extends {h0 h : Heap} {data : HVal} {opName : String}
    {v : HVal} {h2 : Heap} (he : HeapExtends h0 h)
    (hx : heapRelayifyReturn h data opName = .ok (v, h2)) : HeapExtends h0 h2 := by
  unfold heapRelayifyReturn at hx
  split at hx
  · cases hx
  · split at hx
    · cases hx
      exact he
    · exact hGetAllocD_extends he hx


theorem heapRelayifyFallthrough_extends {h0 h : Heap} {data : HVal}
    {opName : String} {v : HVal} {h2 : Heap} (he : HeapExtends h0 h)
    (hx : heapRelayifyFallthrough h data opName = .ok (v, h2)) :
    HeapExtends h0 h2 := by
  unfold heapRelayifyFallthrough at hx
  split at hx
  · cases hx
  · split at hx
    · cases hx
    · split at hx
      · split at hx
        · cases hx
        · rename_i ds vs h2' hpop
          exact heapRelayifyReturn_extends
            (hPop_extends he.1 (heapExtends_trans he (heap_alloc_extends h _)) hpop) hx
      · cases hx
  · exact heapRelayifyReturn_extends he hx

theorem heapSimplifyCore_extends {h0 h : Heap} {data : HVal} {opName : String}
    {v : HVal} {h2 : Heap} (he : HeapExtends h0 h)
    (hx : heapSimplifyCore h data opName = .ok (v, h2)) : HeapExtends h0 h2 := by
  unfold heapSimplifyCore at hx
  split at hx
  · cases hx
  · split at hx
    · cases hx
    · cases hx
      exact heapExtends_trans he (heap_alloc_extends h _)
    · split at hx
      · split at hx
        · cases hx
        · rename_i ds vs h2' hpop
          cases hx
          exact hPop_extends he.1 (heapExtends_trans he (heap_alloc_extends h _)) hpop
      · cases hx
  · exact hGetAllocD_extends he hx

theorem heapSimplify_extends (h : Heap) (resp : HVal) (k : String) (v : HVal)
    (h2 : Heap) (hx : heapSimplify h resp k = .ok (v, h2)) : HeapExtends h h2 := by
  unfold heapSimplify at hx
  split at hx
  · cases hx
  · cases hx
    exact heapExtends_refl h
  · split at hx
    · cases hx
    · exact heapSimplifyCore_extends (heapExtends_refl h) hx

theorem heapRelayifyEnvelope_extends {h0 h : Heap} {data : HVal} {opName : String}
    {r : Nat} {tcv v : HVal} {h2 : Heap}
    (hr : h0.next ≤ r) (he : HeapExtends h0 h)
    (hx : heapRelayifyEnvelope h data opName r tcv = .ok (v, h2)) :
    HeapExtends h0 h2 := by
  unfold heapRelayifyEnvelope at hx
  split at hx
  · cases hx
  · rename_i h4 hset1
    split at hx
    · cases hx
    · rename_i h6 hset2
      have he4 : HeapExtends h0 h4 := hSetItem_extends hr he hset1
      have he6 : HeapExtends h0 h6 :=
        hSetItem_extends hr (heapExtends_trans he4 (heap_alloc_extends h4 _)) hset2
      split at hx
      · cases hx
      · exact heapRelayifyFallthrough_extends he6 hx
      · split at hx
        · cases hx
        · rename_i items h7 hget
          have he7 : HeapExtends h0 h7 := hGetAllocD_extends he6 hget
          split at hx
          · cases hx
          · rename_i xs hiter
            split at hx
            · cases hx
            · rename_i h10 hset3
              cases hx
              have he9 : HeapExtends h0
                  ((allocEdges h7 xs 1).2.alloc (.list (allocEdges h7 xs 1).1)).2 :=
                heapExtends_trans (allocEdges_extends xs 1 he7) (heap_alloc_extends _ _)
              exact hSetItem_extends hr he9 hset3

theorem heapRelayify_extends (h : Heap) (resp : HVal) (k : String) (v : HVal)
    (h2 : Heap) (hx : heapRelayify h resp k = .ok (v, h2)) : HeapExtends h h2 := by
  unfold heapRelayify at hx
  split at hx
  · cases hx
  · cases hx
    exact heapExtends_refl h
  · split at hx
    · cases hx
    · split at hx
      · cases hx
      · rename_i data a1 h1 hg1
        split at hx
        · cases hx
        · rename_i a2 hh2 hg2
          have he1 : HeapExtends h h1 := hGetAllocD_extends (heapExtends_refl h) hg1
          have he2 : HeapExtends h hh2 := hGetAllocD_extends he1 hg2
          split at hx
          · cases hx
          · split at hx
            · exact heapRelayifyFallthrough_extends
                (heapExtends_trans he2 (heap_alloc_extends hh2 _)) hx
            · exact heapRelayifyEnvelope_extends he2.1
                (heapExtends_trans he2 (heap_alloc_extends hh2 _)) hx

/-- C10: neither `simplify` nor `relayify` mutates its response argument.
In the store model, whenever either function returns normally, every
address allocated before the call — in particular the response dict and
every object reachable from it, including the nested `data` dict and the
dicts touched by the by-pk merge branch (`{**data, **...}` allocates a
fresh dict and `pop` mutates only that copy) — holds exactly the same
object afterwards. -/
theorem shaping_does_not_mutate_response (h : Heap) (resp : HVal) (k : String) :
    (∀ v h2, heapSimplify h resp k = .ok (v, h2) →
      ∀ a, a < h.next → h2.lookup a = h.lookup a) ∧
    (∀ v h2, heapRelayify h resp k = .ok (v, h2) →
      ∀ a, a < h.next → h2.lookup a = h.lookup a) :=
  ⟨fun v h2 hx a ha => (heapSimplify_extends h resp k v h2 hx).2 a ha,
   fun v h2 hx a ha => (heapRelayify_extends h resp k v h2 hx).2 a ha⟩

/-- Witness for C10: running `simplify` over `demoHeap` returns the nested
item and only adds the allocated `[]` default; address 1 (the data dict)
is unchanged, by the theorem. -/
theorem shaping_does_not_mutate_response_witness :
    heapSimplify demoHeap (.ref 0) "item" = .ok (.num 5, demoHeapAfter) ∧
    demoHeapAfter.lookup 1 = demoHeap.lookup 1 :=
  ⟨rfl,
   (shaping_does_not_mutate_response demoHeap (.ref 0) "item").1 (.num 5)
     demoHeapAfter rfl 1 (by decide)⟩
